import Mathlib

/-!
Verification development for the `pdful` PDF parse engine.

The TypeScript sources are embedded shallowly: each Lean definition mirrors
one function (or a cohesive fragment) of the source, translated statement by
statement.  Machine numbers are modelled as `Int`/`Rat` with explicit 32-bit
wrapping where the JavaScript semantics demands it.
-/

namespace Pdful

/-! ## Tokenizer: number scanning

Embeds the NUMBER branch of `Tokenizer._nextRawToken`
(`src/lib/components/tokenizer.ts`, lines 249-271):

    const raw = char + await this.reader.readStringWhile(TOKEN_BYTE_NUMBER)
    let num
    if (raw.includes('.')) { num = parseFloat(raw) } else { num = parseInt(raw) }
    if (Number.isNaN(num)) { num = 0; warning = ... 'tokenizer:invalid_token:real' }
    let type
    if (Number.isInteger(num)) { type = 'integer' } else { type = 'real' }
    return { type, start, end, value: num, warning }

`raw` consists only of bytes in the NUMBER class `{+, -, ., 0-9}`.
JavaScript `parseFloat`/`parseInt` parse the longest valid literal at the
front of the string and return NaN when no digits were found; over the
NUMBER alphabet the parsed value is an exact decimal, modelled as `Rat`
(`none` models NaN).  `Number.isInteger q` is `q.den = 1`.
-/

def isDigitChar (c : Char) : Bool := '0' ≤ c && c ≤ '9'

def digitVal (c : Char) : Nat := c.toNat - '0'.toNat

/-- Split a leading `+`/`-` sign off, returning the sign as `1` or `-1`. -/
def readSign : List Char → Int × List Char
  | '+' :: rest => (1, rest)
  | '-' :: rest => (-1, rest)
  | cs => (1, cs)

/-- Longest digit run at the front. -/
def takeDigits : List Char → List Char × List Char
  | [] => ([], [])
  | c :: cs =>
    if isDigitChar c then
      let (ds, rest) := takeDigits cs
      (c :: ds, rest)
    else ([], c :: cs)

def digitsToNat (ds : List Char) : Nat :=
  ds.foldl (fun acc c => 10 * acc + digitVal c) 0

/-- JavaScript `parseInt(s)` (radix 10) on a string over the NUMBER
alphabet: optional sign, then the longest digit run; no digits means NaN
(`none`). -/
def jsParseInt (s : List Char) : Option Int :=
  let (sign, rest) := readSign s
  let (ds, _) := takeDigits rest
  if ds.isEmpty then none else some (sign * (digitsToNat ds : Int))

/-- JavaScript `parseFloat(s)` on a string over the NUMBER alphabet:
optional sign, digit run, optional `.` followed by a digit run; at least one
digit must appear or the result is NaN (`none`).  The value of a finite
decimal literal is exact, so it is returned as a rational. -/
def jsParseFloat (s : List Char) : Option Rat :=
  let (sign, rest) := readSign s
  let (ds, rest2) := takeDigits rest
  match rest2 with
  | '.' :: rest3 =>
    let (fs, _) := takeDigits rest3
    if ds.isEmpty && fs.isEmpty then none
    else
      -- the exact value of the literal `ds . fs`, as a single rational
      some (mkRat (sign * (digitsToNat ds * 10 ^ fs.length + digitsToNat fs)) (10 ^ fs.length))
  | _ => if ds.isEmpty then none else some ((sign * (digitsToNat ds : Int) : Int) : Rat)

inductive NumKind where
  | integer
  | real
  deriving DecidableEq, Repr

structure NumTok where
  kind : NumKind
  value : Rat
  warning : Bool
  deriving DecidableEq, Repr

/-- `num` before the NaN check: `parseFloat(raw)` when the run contains `.`,
else `parseInt(raw)` (whole-number result cast to the common number type);
`none` is NaN. -/
def scanParsed (raw : List Char) : Option Rat :=
  if raw.contains '.' then jsParseFloat raw
  else (jsParseInt raw).map (fun n => (n : Rat))

/-- The NUMBER branch of `_nextRawToken`.  `raw` is the scanned NUMBER run:
NaN becomes 0 with a warning, and the kind is `integer` iff
`Number.isInteger` holds of the final value. -/
def scanNumber (raw : List Char) : NumTok :=
  { kind := if ((scanParsed raw).getD 0).den = 1 then .integer else .real,
    value := (scanParsed raw).getD 0,
    warning := (scanParsed raw).isNone }

/-! ## Tokenizer: lookahead composition

Embeds `Tokenizer.tokens` (`src/lib/components/tokenizer.ts`, lines 37-92).
The generator keeps a buffer (`tokens`); raw tokens are handled by kind:

  * `space`: dropped (`keep = false, push = false`);
  * `junk`: merged into a trailing buffered `junk` (extending its byte span),
    otherwise buffered; never triggers emission (falls through to the
    `integer` case, `push = false`);
  * `integer`: buffered (`push = false`);
  * `indirect_start` / `ref`: `tokens.splice(tokens.length - 2, 2)` removes
    the two most recently buffered tokens (fewer when the buffer is shorter,
    matching the splice semantics for a negative start index); if exactly two
    were removed and both are integers their values become the `{num, gen}`
    payload, otherwise the payload is `{num: -1, gen: -1}` and the token
    carries a warning `tokenizer:invalid_token:<kind>`; the token then joins
    the buffer and everything is emitted;
  * any other kind: buffered and everything is emitted.

At reader EOF the remaining buffer is emitted.
-/

inductive TkKind where
  | space | comment | junk
  | nullK | boolK | integer | real | strK | hexstr | nameK
  | arrayStart | arrayEnd | dictStart | dictEnd
  | indirectStart | indirectEnd | refK | streamK | xrefK | trailerK | eofK | op
  deriving DecidableEq, Repr

/-- A raw token as produced by `_nextRawToken`, restricted to the data the
composition step reads: kind, integer payload, byte span. -/
structure RawTok where
  kind : TkKind
  ival : Int := 0
  start : Nat := 0
  stop : Nat := 0
  deriving DecidableEq, Repr

/-- A token as emitted by `tokens()`: the raw data plus the composed
`{num, gen}` payload and the composition warning flag. -/
structure OutTok where
  kind : TkKind
  ival : Int := 0
  start : Nat := 0
  stop : Nat := 0
  numgen : Option (Int × Int) := none
  warning : Bool := false
  deriving DecidableEq, Repr

def rawToOut (t : RawTok) : OutTok :=
  { kind := t.kind, ival := t.ival, start := t.start, stop := t.stop }

/-- One iteration of the `tokens()` loop: given the buffer and the next raw
token, return the new buffer and the tokens emitted (in order). -/
def composeStep (buf : List OutTok) (t : RawTok) : List OutTok × List OutTok :=
  match t.kind with
  | .space => (buf, [])
  | .junk =>
    match buf.getLast? with
    | some last =>
      if last.kind = .junk then
        (buf.dropLast ++ [{ last with stop := t.stop }], [])
      else (buf ++ [rawToOut t], [])
    | none => (buf ++ [rawToOut t], [])
  | .integer => (buf ++ [rawToOut t], [])
  | .indirectStart =>
    composeObjTok buf t
  | .refK =>
    composeObjTok buf t
  | _ => ([], buf ++ [rawToOut t])
where
  /-- The `indirect_start`/`ref` case: splice the last two buffered tokens,
  build the `{num, gen}` payload, emit everything. -/
  composeObjTok (buf : List OutTok) (t : RawTok) : List OutTok × List OutTok :=
    match buf.reverse with
    | b :: a :: rest =>
      if a.kind = .integer ∧ b.kind = .integer then
        ([], rest.reverse ++ [{ rawToOut t with numgen := some (a.ival, b.ival) }])
      else
        ([], rest.reverse ++ [{ rawToOut t with numgen := some (-1, -1), warning := true }])
    | _ =>
      ([], [{ rawToOut t with numgen := some (-1, -1), warning := true }])

/-- The whole of `tokens()` over a list of raw tokens, flushing the buffer at
EOF. -/
def composeRun (raws : List RawTok) : List OutTok :=
  go [] raws
where
  go (buf : List OutTok) : List RawTok → List OutTok
    | [] => buf
    | t :: ts =>
      let (buf2, emitted) := composeStep buf t
      emitted ++ go buf2 ts

/-! ## Parser: reference resolution

Embeds `Parser.resolveRefs` (`src/lib/components/parser.ts`, lines 593-603):

    for (const ref of collection.refs.values()) {
      if (ref.identifier && !ref.indirect) {
        const obj = collection.identifier(ref.identifier)
        if (obj) { ref.indirect = obj }
      }
    }

A Ref is modelled by its `identifier` (null or a `{num, gen}` pair) and its
`indirect` pointer (null or the uid of an Indirect).  The collection keeps the
iterable set of refs and the `indirects` index mapping `"num/gen"` keys to
Indirects (`ObjCollection.identifier`). -/

structure RefRec where
  identifier : Option (Int × Int)
  indirect : Option Nat
  deriving DecidableEq, Repr

structure RefCollection where
  refs : List RefRec
  indirects : List ((Int × Int) × Nat)
  deriving DecidableEq, Repr

/-- `ObjCollection.identifier`: look the `{num, gen}` key up in the
`indirects` map, returning the Indirect or null. -/
def lookupIndirect (c : RefCollection) (id : Int × Int) : Option Nat :=
  (c.indirects.find? (fun p => p.1 = id)).map (·.2)

/-- The loop body of `resolveRefs` for one ref. -/
def resolveOneRef (c : RefCollection) (r : RefRec) : RefRec :=
  match r.identifier with
  | some id =>
    if r.indirect = none then
      match lookupIndirect c id with
      | some u => { r with indirect := some u }
      | none => r
    else r
  | none => r

def resolveRefs (c : RefCollection) : RefCollection :=
  { c with refs := c.refs.map (resolveOneRef c) }

/-! ## Parser: stream length check

Embeds the declared-length check of `Parser.decodeStreamObj`
(`src/lib/components/parser.ts`, lines 746-754):

    const warnings: PdfError[] = []
    const dictData = dictObj.getChildrenValue()
    if (dictData.F) { warnings.push(... 'parser:not_implemented:stream:file' ...) }
    const actualLength = sourceLocation.end - sourceLocation.start
    if (typeof dictData.Length === 'number' && dictData.Length !== actualLength) {
      warnings.push(... 'parser:invalid:stream:length_mismatch' ...)
    }

The function only ever pushes warnings; `sourceLocation` is not modified and
decoding proceeds regardless. -/

structure StreamMeta where
  /-- `dictData.Length` when it is a number, else `none`. -/
  dictLength : Option Int
  /-- truthiness of `dictData.F`. -/
  hasF : Bool
  srcStart : Int
  srcEnd : Int
  deriving DecidableEq, Repr

structure LengthCheckResult where
  /-- `sourceLocation.end` after the check. -/
  srcEnd : Int
  warnings : List String
  deriving DecidableEq, Repr

def decodeStreamLengthCheck (s : StreamMeta) : LengthCheckResult :=
  let w1 : List String := if s.hasF then ["parser:not_implemented:stream:file"] else []
  let actualLength := s.srcEnd - s.srcStart
  let w2 : List String :=
    match s.dictLength with
    | some len => if len ≠ actualLength then ["parser:invalid:stream:length_mismatch"] else []
    | none => []
  { srcEnd := s.srcEnd, warnings := w1 ++ w2 }

/-! ## Parser: xref stream decode

Embeds `Parser.parseXrefStreamObj` (`src/lib/components/parser.ts`, lines
874-1011), from the point where `dictData` has been extracted.  Dictionary
entries are abstracted to the shapes the function inspects:

  * `W`: `util.isArrayOfNumber` passes (`nums`) or not;
  * `Size`: a number or not;
  * `Index`: `dictData.Index || null` is null (`absent`), a numeric array
    (`nums`), or any other truthy value (`otherVal`).

JavaScript 32-bit arithmetic: the width-3 read in the source is

    fieldValue = dataview.getUint16(offset, false) << 8 +
                 dataview.getUint8(offset + 2)

where `+` binds tighter than `<<`, so the 16-bit value is shifted left by
`8 + byte`, with ECMAScript `<<` semantics (both operands to 32 bits, shift
count taken mod 32, signed 32-bit result). -/

inductive JNums where
  | absent
  | nums (ns : List Int)
  | otherVal
  deriving DecidableEq, Repr

structure XrefDictData where
  W : JNums
  Size : Option Int
  Index : JNums
  deriving DecidableEq, Repr

inductive XrefEntry where
  | free (num : Int) (nextFree : Int) (reuseGen : Int)
  | inUse (num : Int) (offset : Int) (gen : Int)
  | compressed (num : Int) (streamNum : Int) (indexInStream : Int)
  | unknown (num : Int) (fields : List (Option Int))
  deriving DecidableEq, Repr

structure XrefValue where
  widths : List Int
  subsections : List (Int × Int)
  objTable : List XrefEntry
  deriving DecidableEq, Repr

structure XrefParseResult where
  /-- `xrefObj.value`; stays null (`none`) when the function returns early. -/
  value : Option XrefValue
  warnings : List String
  deriving DecidableEq, Repr

/-- ECMAScript ToUint32. -/
def toUint32 (n : Int) : Nat := (n % 4294967296).toNat

/-- ECMAScript ToInt32. -/
def toInt32 (n : Int) : Int :=
  let m := n % 4294967296
  if m ≥ 2147483648 then m - 4294967296 else m

/-- ECMAScript `a << b`. -/
def jsShl (a b : Int) : Int :=
  toInt32 ((toUint32 a <<< (toUint32 b % 32) : Nat) : Int)

/-- `DataView.getUint8` over the decoded payload (reads are guarded by the
record-length check in the caller, so out-of-range never happens there). -/
def byteAt (bytes : List Nat) (offset : Int) : Nat :=
  if h : 0 ≤ offset ∧ offset.toNat < bytes.length then bytes.get ⟨offset.toNat, h.2⟩ else 0

/-- Read one field of the given width at `offset`, big-endian; width 0 reads
nothing (`null`).  The width-3 case reproduces the source expression
`getUint16 << 8 + getUint8` with JavaScript operator precedence. -/
def readXrefField (bytes : List Nat) (offset : Int) (width : Int) : Option Int :=
  if width = 0 then none
  else if width = 1 then some (byteAt bytes offset)
  else if width = 2 then some (256 * (byteAt bytes offset : Int) + byteAt bytes (offset + 1))
  else if width = 3 then
    some (jsShl (256 * (byteAt bytes offset : Int) + byteAt bytes (offset + 1))
      (8 + (byteAt bytes (offset + 2) : Int)))
  else if width = 4 then
    some (16777216 * (byteAt bytes offset : Int) + 65536 * (byteAt bytes (offset + 1) : Int)
      + 256 * (byteAt bytes (offset + 2) : Int) + byteAt bytes (offset + 3))
  else none

/-- Read the fields of one record: left fold over the widths, advancing
`offset` by each width. -/
def readXrefRecord (bytes : List Nat) (widths : List Int) (offset : Int) :
    List (Option Int) × Int :=
  widths.foldl (fun (acc : List (Option Int) × Int) width =>
    (acc.1 ++ [readXrefField bytes acc.2 width], acc.2 + width)) ([], offset)

/-- JavaScript `fields[i] == null ? 0 : fields[i]` (out-of-range access is
`undefined`, which is `== null`). -/
def fieldOr0 (fields : List (Option Int)) (i : Nat) : Int :=
  ((fields.get? i).join).getD 0

/-- Classify one record (`switch (type)` in the source).  `type` is
`fields[0] == null ? 1 : fields[0]`. -/
def classifyXrefRecord (num : Int) (fields : List (Option Int)) : XrefEntry :=
  match (fields.get? 0).join with
  | none => .inUse num (fieldOr0 fields 1) (fieldOr0 fields 2)
  | some t =>
    if t = 0 then .free num (fieldOr0 fields 1) (fieldOr0 fields 2)
    else if t = 1 then .inUse num (fieldOr0 fields 1) (fieldOr0 fields 2)
    else if t = 2 then .compressed num (fieldOr0 fields 1) (fieldOr0 fields 2)
    else .unknown num fields

/-- The record-reading loop:
`while (allObjNum.length && offset <= dataview.byteLength - recordLength)`. -/
def readXrefRecords (bytes : List Nat) (widths : List Int) (recordLength : Int) :
    List Int → Int → List XrefEntry
  | [], _ => []
  | num :: nums, offset =>
    if offset ≤ (bytes.length : Int) - recordLength then
      let (fields, offset2) := readXrefRecord bytes widths offset
      classifyXrefRecord num fields :: readXrefRecords bytes widths recordLength nums offset2
    else []

/-- The `Index` pair loop: `for (index = 0; index < rawIndex.length - 1;
index += 2)` collecting `(startNum, count)` subsections and the flat list of
object numbers `startNum + 0 .. startNum + count - 1`. -/
def xrefIndexPairs : List Int → List (Int × Int) × List Int
  | startNum :: count :: rest =>
    let (subs, nums) := xrefIndexPairs rest
    ((startNum, count) :: subs,
      ((List.range count.toNat).map (fun i => startNum + i)) ++ nums)
  | _ => ([], [])

/-- `Parser.parseXrefStreamObj` after `dictData` extraction. -/
def parseXrefStreamObj (dict : XrefDictData) (bytes : List Nat) : XrefParseResult :=
  match dict.W with
  | .nums ws =>
    if ws.any (fun w => ¬(w = 0 ∨ w = 1 ∨ w = 2 ∨ w = 3 ∨ w = 4)) then
      { value := none, warnings := ["parser:invalid_stream:xref:unsupported_w"] }
    else
      match dict.Size with
      | none => { value := none, warnings := ["parser:invalid_stream:xref:invalid_size"] }
      | some size =>
        match dict.Index with
        | .otherVal => { value := none, warnings := ["parser:invalid_stream:xref:invalid_index"] }
        | rawIndex =>
          let recordLength := ws.foldl (· + ·) 0
          let (subsections, allObjNum) :=
            match rawIndex with
            | .nums idx => xrefIndexPairs idx
            | _ =>
              -- no Index: `subsections.push({startNum: 0, count: dictData.Size})`,
              -- then `for (let index = 0; index < totalCount; index++)
              -- allObjNum.push(index)` runs zero times because `totalCount`
              -- is still 0 at that point (it is assigned `dictData.Size`
              -- only afterwards), so `allObjNum` stays empty.
              ([((0 : Int), size)], [])
          let objTable := readXrefRecords bytes ws recordLength allObjNum 0
          { value := some { widths := ws, subsections := subsections, objTable := objTable },
            warnings := [] }
  | _ => { value := none, warnings := ["parser:invalid_stream:xref:invalid_w"] }

/-! ## Parser: catalog resolution

Embeds `Parser.resolveCatalog` (`src/lib/components/parser.ts`, lines
691-731).  The function walks `collection.root.children`; for each child that
is a `Table` it computes a candidate catalog:

  * first from the Table's `trailer` dictionary: `trailer.children.get('Root')`
    must be a `Ref` whose `direct` (i.e. `ref.indirect?.direct`, see
    `RefObj.direct` in the object model) is a `Dictionary`;
  * otherwise from the Table's `xrefObj`: its `parent` must be a `Stream`
    whose `dictionary` holds a `Root` entry dereferenced the same way;

and then runs `if (catalogObj) { collection.catalog = catalogObj }` — every
matching Table overwrites the previous assignment.

The object graph is modelled by the projection the function reads.
Dictionaries are represented by their children lists; `CObj.ref` carries
`ref.indirect` (outer `Option`) and `indirect.direct` (inner `Option`). -/

inductive CObj where
  | dict (entries : List (String × CObj))
  | ref (indirect : Option (Option CObj))
  | nameObj (s : String)
  | other

/-- `Map.get` over a dictionary's children. -/
def dictGet (entries : List (String × CObj)) (key : String) : Option CObj :=
  (entries.find? (fun p => p.1 = key)).map (·.2)

/-- Dereference a dictionary's `Root` entry:
`children.get('Root')` must be a `Ref`, and `ref.direct` must be a
`Dictionary` (returned as its children list). -/
def derefRootParam (entries : List (String × CObj)) : Option (List (String × CObj)) :=
  match dictGet entries "Root" with
  | some (.ref ind) =>
    match ind with
    | some (some (.dict es)) => some es
    | _ => none
  | _ => none

/-- A Table as read by `resolveCatalog`: its optional trailer dictionary and,
when `xrefObj` is set (outer `Option`), the `xrefObj.parent` object (inner
`Option`, the Stream that produced it).  `xrefStreamDict` below needs the
parent to be a Stream with a dictionary, so the parent is modelled as
`none` (no parent), or a Stream carrying an optional dictionary
(`some (some d)` / `some none`), or a non-Stream (`nonStream`). -/
inductive XrefParent where
  | streamParent (dictionary : Option (List (String × CObj)))
  | nonStream
  | noParent

structure TableRec where
  trailer : Option (List (String × CObj))
  xrefObj : Option XrefParent

inductive RootChild where
  | table (t : TableRec)
  | nonTable

/-- Candidate catalog for one Table: the trailer path, else the xref-stream
path. -/
def tableCatalog (t : TableRec) : Option (List (String × CObj)) :=
  let fromTrailer : Option (List (String × CObj)) :=
    match t.trailer with
    | some tr => derefRootParam tr
    | none => none
  match fromTrailer with
  | some c => some c
  | none =>
    match t.xrefObj with
    | some (.streamParent (some d)) => derefRootParam d
    | _ => none

/-- `Parser.resolveCatalog`: fold over the root's children starting from the
current `collection.catalog`. -/
def resolveCatalog (catalog0 : Option (List (String × CObj))) (children : List RootChild) :
    Option (List (String × CObj)) :=
  children.foldl (fun acc c =>
    match c with
    | .nonTable => acc
    | .table t =>
      match tableCatalog t with
      | some cat => some cat
      | none => acc) catalog0

/-! ## Object model (for the Lexer)

Embeds the slice of the object model (`model.ObjCollection` and the
`ObjType` classes) that the Lexer reads and writes.  Objects live in a
uid-indexed arena; parent/child links are uids, matching the reference
semantics of the source (the source keeps a global `ObjCollection.maxUid`;
a per-store counter starting at 1 is equivalent for a single collection).
-/

inductive ObjKind where
  | array | boolean | bytes | comment | content | date | dictionary | indirect
  | integer | junk | nameK | nullK | op | real | ref | root | stream | table
  | text | xref
  deriving DecidableEq, Repr

/-- The `type` string of each object class. -/
def objKindStr : ObjKind → String
  | .array => "Array"
  | .boolean => "Boolean"
  | .bytes => "Bytes"
  | .comment => "Comment"
  | .content => "Content"
  | .date => "Date"
  | .dictionary => "Dictionary"
  | .indirect => "Indirect"
  | .integer => "Integer"
  | .junk => "Junk"
  | .nameK => "Name"
  | .nullK => "Null"
  | .op => "Op"
  | .real => "Real"
  | .ref => "Ref"
  | .root => "Root"
  | .stream => "Stream"
  | .table => "Table"
  | .text => "Text"
  | .xref => "Xref"

/-- `'value' in obj`: the object classes that define a `value` accessor
(`ObjWithValue` implementors in the object model); the accessor lives on the
prototype, so the `in` test is a per-class constant. -/
def hasValueProp : ObjKind → Bool
  | .boolean | .bytes | .comment | .date | .integer | .junk | .nameK
  | .nullK | .op | .real | .text | .xref => true
  | _ => false

/-- A JavaScript value held in an object's `value` slot.  JS strings are
`vStr` (Lean strings) for ASCII-safe sources (names, operators, comments) and
`vUnits` (UTF-16 code units) for decoded text. -/
inductive JsVal where
  | undef
  | vNull
  | vBool (b : Bool)
  | vInt (n : Int)
  | vReal (q : Rat)
  | vStr (s : String)
  | vUnits (us : List Nat)
  | vBytes (bs : List Nat)
  deriving DecidableEq, Repr

def unitsToString (us : List Nat) : String :=
  -- UTF-16 code units to a Lean string; units that are not scalar values
  -- (lone surrogates) map to Char 0, which no claim exercises.
  String.mk (us.map Char.ofNat)

/-- Decimal rendering of a rational whose denominator divides a power of 10
(every `real` token value is such a terminating decimal). -/
def ratDecimalString (q : Rat) : String :=
  if q.den = 1 then toString q.num
  else
    match (List.range 31).find? (fun k => (10 ^ k) % q.den = 0) with
    | some k =>
      let sign := if q.num < 0 then "-" else ""
      let scaled := q.num.natAbs * ((10 ^ k) / q.den)
      let ip := scaled / 10 ^ k
      let fpDigits := Nat.toDigits 10 (scaled % 10 ^ k + 10 ^ k)
      let frac := (String.mk (fpDigits.drop 1)).dropRightWhile (fun c => c = '0')
      sign ++ toString ip ++ "." ++ frac
    | none => toString q.num ++ "/" ++ toString q.den

/-- JavaScript `String(value)` for the value shapes that can sit in an
object's `value` slot. -/
def jsValToString : JsVal → String
  | .undef => "undefined"
  | .vNull => "null"
  | .vBool b => if b then "true" else "false"
  | .vInt n => toString n
  | .vReal q => ratDecimalString q
  | .vStr s => s
  | .vUnits us => unitsToString us
  | .vBytes bs => String.intercalate "," (bs.map toString)

/-- A classical xref-table entry (`TableObj.xrefTable.objs` elements). -/
inductive XrefTabEntry where
  | nEntry (num offset gen : Int)
  | fEntry (num nextFree reuseGen : Int)
  deriving DecidableEq, Repr

structure XrefTabVal where
  startNum : Int
  objs : List XrefTabEntry
  deriving DecidableEq, Repr

/-- One object record in the arena.  Each field mirrors a property of the
corresponding object class; the child-slot fields (`direct`,
`indirectChild`, `dictionaryChild`, `trailerChild`) model the keyed
`children` maps of Indirect, Ref, Stream and the `trailer` of Table. -/
structure ObjRec where
  kind : ObjKind
  value : JsVal := .undef
  encoding : String := "pdf"
  tokenType : String := "string"
  arrChildren : List Nat := []
  dictChildren : List (String × Nat) := []
  direct : Option Nat := none
  indirectChild : Option Nat := none
  dictionaryChild : Option Nat := none
  identifier : Option (Int × Int) := none
  sourceLocation : Option (Int × Int) := none
  parent : Option Nat := none
  trailerChild : Option Nat := none
  startxref : Option Int := none
  xrefTable : Option XrefTabVal := none
  deriving DecidableEq, Repr

/-- `Map.set`: replace in place when the key exists, else append. -/
def assocSet {α β : Type} [DecidableEq α] (m : List (α × β)) (key : α) (val : β) :
    List (α × β) :=
  if m.any (fun p => p.1 = key) then
    m.map (fun p => if p.1 = key then (key, val) else p)
  else m ++ [(key, val)]

structure Store where
  nextUid : Nat := 1
  objs : List (Nat × ObjRec) := []
  indirects : List ((Int × Int) × Nat) := []
  refs : List Nat := []
  streams : List Nat := []
  deriving DecidableEq, Repr

def Store.getObj (s : Store) (uid : Nat) : ObjRec :=
  (((s.objs.find? (fun p => p.1 = uid)).map (fun p => p.2)).getD { kind := .nullK })

def Store.setObj (s : Store) (uid : Nat) (r : ObjRec) : Store :=
  { s with objs := assocSet s.objs uid r }

/-- `ObjCollection.addObject`: (re)register the object in the maps. -/
def Store.addObject (s : Store) (uid : Nat) (r : ObjRec) : Store :=
  let s := s.setObj uid r
  if r.kind = .indirect then
    match r.identifier with
    | some id => { s with indirects := assocSet s.indirects id uid }
    | none => s
  else if r.kind = .ref then
    { s with refs := if s.refs.contains uid then s.refs else s.refs ++ [uid] }
  else if r.kind = .stream then
    { s with streams := if s.streams.contains uid then s.streams else s.streams ++ [uid] }
  else s

/-- `ObjCollection.createObject`: allocate the next uid and register.  The
source constructs an empty object and the caller sets its fields right away;
here the record is passed in directly, which is observationally the same. -/
def Store.createObject (s : Store) (r : ObjRec) : Store × Nat :=
  let uid := s.nextUid
  (Store.addObject { s with nextUid := uid + 1 } uid r, uid)

/-! ## String decoding (platform `TextDecoder` model)

`Lexer.createStringObject` decodes byte strings through
`codecs.decodeStringArray`, which wraps the platform `TextDecoder`s for
`latin1`, `utf8` and `utf-16be`.  These decoders are modelled here.
(`TextDecoder('latin1')` is the windows-1252 decoder, which differs from
identity only on 0x80-0x9F; it is used solely to feed the date regular
expression, which no byte in that range can satisfy either way, so the
identity mapping is used.) -/

def decodeLatin1 (bs : List Nat) : List Char := bs.map Char.ofNat

/-- UTF-16BE: big-endian byte pairs to code units; a trailing lone byte is a
decoding error, yielding U+FFFD. -/
def utf16beUnits : List Nat → List Nat
  | hi :: lo :: rest => (256 * hi + lo) :: utf16beUnits rest
  | [_] => [0xFFFD]
  | [] => []

def isLeadSurrogate (u : Nat) : Bool := 0xD800 ≤ u && u ≤ 0xDBFF
def isTrailSurrogate (u : Nat) : Bool := 0xDC00 ≤ u && u ≤ 0xDFFF

/-- Surrogate validation of the shared UTF-16 decoder: valid pairs pass
through, lone surrogates become U+FFFD. -/
def utf16Validate : List Nat → List Nat
  | [] => []
  | [u] =>
    if isLeadSurrogate u || isTrailSurrogate u then [0xFFFD] else [u]
  | u :: v :: rest =>
    if isLeadSurrogate u then
      if isTrailSurrogate v then u :: v :: utf16Validate rest
      else 0xFFFD :: utf16Validate (v :: rest)
    else if isTrailSurrogate u then 0xFFFD :: utf16Validate (v :: rest)
    else u :: utf16Validate (v :: rest)

/-- `TextDecoder('utf-16be').decode`: pair bytes, strip one leading BOM,
validate surrogates. -/
def decodeUtf16be (bs : List Nat) : List Nat :=
  let units := utf16beUnits bs
  utf16Validate (match units with
    | 0xFEFF :: rest => rest
    | us => us)

def utf8Cont (b : Nat) : Bool := 128 ≤ b && b ≤ 191

/-- WHATWG UTF-8 decoding to code points with U+FFFD replacement; `fuel`
bounds the recursion (each step consumes at least the lead byte). -/
def utf8DecodeAux : Nat → List Nat → List Nat
  | 0, _ => []
  | _, [] => []
  | fuel + 1, b :: rest =>
    if b ≤ 127 then b :: utf8DecodeAux fuel rest
    else if 194 ≤ b && b ≤ 223 then
      match rest with
      | c :: rest2 =>
        if utf8Cont c then ((b - 192) * 64 + (c - 128)) :: utf8DecodeAux fuel rest2
        else 0xFFFD :: utf8DecodeAux fuel rest
      | [] => [0xFFFD]
    else if 224 ≤ b && b ≤ 239 then
      let lowOk : Nat → Bool := fun c =>
        if b = 224 then 160 ≤ c && c ≤ 191
        else if b = 237 then 128 ≤ c && c ≤ 159
        else utf8Cont c
      match rest with
      | c :: rest2 =>
        if lowOk c then
          match rest2 with
          | d :: rest3 =>
            if utf8Cont d then
              ((b - 224) * 4096 + (c - 128) * 64 + (d - 128)) :: utf8DecodeAux fuel rest3
            else 0xFFFD :: utf8DecodeAux fuel rest2
          | [] => [0xFFFD]
        else 0xFFFD :: utf8DecodeAux fuel rest
      | [] => [0xFFFD]
    else if 240 ≤ b && b ≤ 244 then
      let lowOk : Nat → Bool := fun c =>
        if b = 240 then 144 ≤ c && c ≤ 191
        else if b = 244 then 128 ≤ c && c ≤ 143
        else utf8Cont c
      match rest with
      | c :: rest2 =>
        if lowOk c then
          match rest2 with
          | d :: rest3 =>
            if utf8Cont d then
              match rest3 with
              | e :: rest4 =>
                if utf8Cont e then
                  ((b - 240) * 262144 + (c - 128) * 4096 + (d - 128) * 64 + (e - 128)) ::
                    utf8DecodeAux fuel rest4
                else 0xFFFD :: utf8DecodeAux fuel rest3
              | [] => [0xFFFD]
            else 0xFFFD :: utf8DecodeAux fuel rest2
          | [] => [0xFFFD]
        else 0xFFFD :: utf8DecodeAux fuel rest
      | [] => [0xFFFD]
    else 0xFFFD :: utf8DecodeAux fuel rest

/-- Code points to UTF-16 code units. -/
def toUtf16Units (cps : List Nat) : List Nat :=
  cps.foldr (fun cp acc =>
    if cp < 65536 then cp :: acc
    else (0xD800 + (cp - 65536) / 1024) :: (0xDC00 + (cp - 65536) % 1024) :: acc) []

/-- `TextDecoder('utf-8').decode`: strip one leading byte-order mark, decode
with replacement. -/
def decodeUtf8 (bs : List Nat) : List Nat :=
  let body := match bs with
    | 239 :: 187 :: 191 :: rest => rest
    | _ => bs
  toUtf16Units (utf8DecodeAux body.length body)

/-! ## Lexer: string classification

Embeds `Lexer.createStringObject` (`src/unnamed/part_008`, lines 181-266):
the encoding sniff loop over `LEXER_STRING_TESTS` (in insertion order
`date` = "D:", `utf8` = EF BB BF, `utf16be` = FE FF; a match strips the
tested bytes), the handlers, the hexstring fallback to Bytes, and the
PDFDocEncoding fallback. -/

/-- `LEXER_PDFDOCENCODING_MAP`. -/
def pdfDocMap (b : Nat) : Option Nat :=
  if b = 0x16 then some 0x0017
  else if b = 0x18 then some 0x02D8
  else if b = 0x19 then some 0x02C7
  else if b = 0x1a then some 0x02C6
  else if b = 0x1b then some 0x02D9
  else if b = 0x1c then some 0x02DD
  else if b = 0x1d then some 0x02DB
  else if b = 0x1e then some 0x02DA
  else if b = 0x1f then some 0x02DC
  else if b = 0x7f then some 0xFFFD
  else if b = 0x80 then some 0x2022
  else if b = 0x81 then some 0x2020
  else if b = 0x82 then some 0x2021
  else if b = 0x83 then some 0x2026
  else if b = 0x84 then some 0x2014
  else if b = 0x85 then some 0x2013
  else if b = 0x86 then some 0x0192
  else if b = 0x87 then some 0x2044
  else if b = 0x88 then some 0x2039
  else if b = 0x89 then some 0x203A
  else if b = 0x8a then some 0x2212
  else if b = 0x8b then some 0x2030
  else if b = 0x8c then some 0x201E
  else if b = 0x8d then some 0x201C
  else if b = 0x8e then some 0x201D
  else if b = 0x8f then some 0x2018
  else if b = 0x90 then some 0x2019
  else if b = 0x91 then some 0x201A
  else if b = 0x92 then some 0x2122
  else if b = 0x93 then some 0xFB01
  else if b = 0x94 then some 0xFB02
  else if b = 0x95 then some 0x0141
  else if b = 0x96 then some 0x0152
  else if b = 0x97 then some 0x0160
  else if b = 0x98 then some 0x0178
  else if b = 0x99 then some 0x017D
  else if b = 0x9a then some 0x0131
  else if b = 0x9b then some 0x0142
  else if b = 0x9c then some 0x0153
  else if b = 0x9d then some 0x0161
  else if b = 0x9e then some 0x017E
  else if b = 0x9f then some 0xFFFD
  else if b = 0xa0 then some 0x20AC
  else if b = 0xad then some 0xFFFD
  else none

/-- Groups 1-9 of `LEXER_DATE_REGEXP` as matched (before destructuring
defaults). -/
structure DateGroups where
  year : String
  month : Option String := none
  day : Option String := none
  hours : Option String := none
  mins : Option String := none
  secs : Option String := none
  offsetSign : Option String := none
  offsetHours : Option String := none
  offsetMins : Option String := none
  deriving DecidableEq, Repr

def takeDigitPair : List Char → Option String × List Char
  | a :: b :: rest =>
    if isDigitChar a && isDigitChar b then (some (String.mk [a, b]), rest)
    else (none, a :: b :: rest)
  | cs => (none, cs)

def takeTick : List Char → List Char
  | c :: rest => if c.toNat = 39 then rest else c :: rest
  | [] => []

/-- Anchored match of `LEXER_DATE_REGEXP`
`^(\d\d\d\d)(\d\d)?(\d\d)?(\d\d)?(\d\d)?(\d\d)?([+\-Z])?(\d\d)?'?(\d\d)?'?$`.
All quantified groups are fixed-width and pairwise non-overlapping at each
position, so the greedy left-to-right scan agrees with the regular
expression. -/
def dateRegexpMatch (cs : List Char) : Option DateGroups :=
  match cs with
  | y1 :: y2 :: y3 :: y4 :: rest =>
    if isDigitChar y1 && isDigitChar y2 && isDigitChar y3 && isDigitChar y4 then
      let (month, r1) := takeDigitPair rest
      let (day, r2) := takeDigitPair r1
      let (hours, r3) := takeDigitPair r2
      let (mins, r4) := takeDigitPair r3
      let (secs, r5) := takeDigitPair r4
      let (offsetSign, r6) :=
        match r5 with
        | c :: r => if c = '+' || c = '-' || c = 'Z' then (some (String.mk [c]), r) else (none, c :: r)
        | [] => (none, ([] : List Char))
      let (offsetHours, r7) := takeDigitPair r6
      let r8 := takeTick r7
      let (offsetMins, r9) := takeDigitPair r8
      let r10 := takeTick r9
      if r10.isEmpty then
        some { year := String.mk [y1, y2, y3, y4], month := month, day := day,
               hours := hours, mins := mins, secs := secs, offsetSign := offsetSign,
               offsetHours := offsetHours, offsetMins := offsetMins }
      else none
    else none
  | _ => none

/-- The string handed to `new Date(...)` by the date handler, after the
destructuring defaults. -/
def dateIsoString (g : DateGroups) : String :=
  let month := g.month.getD "01"
  let day := g.day.getD "01"
  let hours := g.hours.getD "00"
  let mins := g.mins.getD "00"
  let secs := g.secs.getD "00"
  let offsetSign := g.offsetSign.getD "Z"
  let offsetHours := g.offsetHours.getD "00"
  let offsetMins := g.offsetMins.getD "00"
  let tzOffset := if offsetSign = "Z" then "Z" else offsetSign ++ offsetHours ++ ":" ++ offsetMins
  g.year ++ "-" ++ month ++ "-" ++ day ++ "T" ++ hours ++ ":" ++ mins ++ ":" ++ secs ++ tzOffset

inductive SniffKind where
  | dateH | utf8H | utf16beH | noneH
  deriving DecidableEq, Repr

/-- The `LEXER_STRING_TESTS` loop: first matching entry wins and its tested
bytes are sliced off. -/
def sniffString (data : List Nat) : SniffKind × List Nat :=
  if [68, 58].isPrefixOf data then (.dateH, data.drop 2)
  else if [239, 187, 191].isPrefixOf data then (.utf8H, data.drop 3)
  else if [254, 255].isPrefixOf data then (.utf16beH, data.drop 2)
  else (.noneH, data)

/-- Shared tail of `createStringObject`: the hexstring branch builds a Bytes
object, otherwise the PDFDocEncoding map is applied byte-for-byte and a Text
tagged `pdf` is built via `String.fromCodePoint`. -/
def stringFallbackObj (tokenType : String) (data : List Nat) : ObjRec :=
  if tokenType = "hexstring" then
    { kind := .bytes, value := .vBytes data }
  else
    { kind := .text,
      value := .vUnits (data.map (fun b => (pdfDocMap b).getD b)),
      encoding := "pdf", tokenType := tokenType }

/-- `Lexer.createStringObject`.  Note the `utf16be` handler decodes through
the UTF-16BE decoder but tags the Text object `utf-8`, exactly as the
source does (`createTextObject(str, 'utf-8')` in both the `utf8` and the
`utf16be` case). -/
def createStringObject (tokenType : String) (data0 : List Nat) : ObjRec :=
  let (handler, data) := sniffString data0
  match handler with
  | .dateH =>
    match dateRegexpMatch (decodeLatin1 data) with
    | some g => { kind := .date, value := .vStr (dateIsoString g) }
    | none => stringFallbackObj tokenType data
  | .utf8H =>
    { kind := .text, value := .vUnits (decodeUtf8 data), encoding := "utf-8",
      tokenType := tokenType }
  | .utf16beH =>
    { kind := .text, value := .vUnits (decodeUtf16be data), encoding := "utf-8",
      tokenType := tokenType }
  | .noneH => stringFallbackObj tokenType data

/-! ## Lexer: token dispatch

Embeds `Lexer.pushToken`, `Lexer.insertObject`, `Lexer.pushStack` and
`Lexer.popStack` (`src/unnamed/part_008`).  The stack is the JS array of
parent objects with its top at the head here (the source pushes/pops at the
array's end).  Warnings are recorded by their stable code tags.  The `throw
new Error('parser code error: invalid parent: ...')` escape of
`insertObject` (unreachable for parser-seeded stacks) is modelled by the
`crashed` flag, which freezes the state. -/

/-- The lexer-relevant content of a token: kind plus payload. -/
inductive LToken where
  | space
  | comment (s : String)
  | junk (s : String)
  | nullTok
  | boolTok (b : Bool)
  | intTok (n : Int)
  | realTok (q : Rat)
  | strTok (data : List Nat)
  | hexTok (data : List Nat)
  | nameTok (s : String)
  | arrayStart
  | arrayEnd
  | dictStart
  | dictEnd
  | indirectStart (num gen : Int)
  | indirectEnd
  | refTok (num gen : Int)
  | streamTok (sstart send : Int)
  | xrefTok (startNum : Int) (objs : List (Int × Int × String))
  | trailerTok
  | eofTok (offset : Int)
  | opTok (s : String)
  deriving DecidableEq, Repr

/-- `token.type`, as interpolated into warning codes. -/
def tokTypeStr : LToken → String
  | .space => "space"
  | .comment _ => "comment"
  | .junk _ => "junk"
  | .nullTok => "null"
  | .boolTok _ => "boolean"
  | .intTok _ => "integer"
  | .realTok _ => "real"
  | .strTok _ => "string"
  | .hexTok _ => "hexstring"
  | .nameTok _ => "name"
  | .arrayStart => "array_start"
  | .arrayEnd => "array_end"
  | .dictStart => "dictionary_start"
  | .dictEnd => "dictionary_end"
  | .indirectStart _ _ => "indirect_start"
  | .indirectEnd => "indirect_end"
  | .refTok _ _ => "ref"
  | .streamTok _ _ => "stream"
  | .xrefTok _ _ => "xref"
  | .trailerTok => "trailer"
  | .eofTok _ => "eof"
  | .opTok _ => "op"

/-- `(token as TokenEof).value`, as read in the Table branch of `popStack`;
end tokens other than `eof` carry value `null`. -/
def tokEofValue : LToken → Option Int
  | .eofTok offset => some offset
  | _ => none

inductive PendingTrailer where
  | noneP
  | flagP
  | dictP (uid : Nat)
  deriving DecidableEq, Repr

structure LexState where
  store : Store
  stack : List Nat := []
  pendingDictionaryKey : Option String := none
  pendingXrefStartNum : Option Int := none
  pendingXrefObjs : List (Int × Int × String) := []
  pendingTrailer : PendingTrailer := .noneP
  crashed : Bool := false
  deriving DecidableEq, Repr

/-- `Lexer.insertObject`.  `uid` is the freshly created object. -/
def insertObject (s : LexState) (uid : Nat) (tok : LToken) : LexState × List String :=
  let obj := s.store.getObj uid
  -- `if (this.pendingTrailer && obj instanceof ObjType.Dictionary)`
  if s.pendingTrailer ≠ .noneP ∧ obj.kind = .dictionary then
    ({ s with pendingTrailer := .dictP uid }, [])
  else
    match s.stack with
    | [] =>
      -- `stack[stack.length - 1]` is undefined: every instanceof test fails
      -- and the function throws
      ({ s with crashed := true }, [])
    | parentUid :: _ =>
      let s := { s with store := s.store.setObj uid { obj with parent := some parentUid } }
      let parent := s.store.getObj parentUid
      if parent.kind = .root then
        let (store2, tableUid) := s.store.createObject { kind := .table }
        let rootRec := store2.getObj parentUid
        let store3 := store2.setObj parentUid
          { rootRec with arrChildren := rootRec.arrChildren ++ [tableUid] }
        let tableRec := store3.getObj tableUid
        let store4 := store3.setObj tableUid
          { tableRec with arrChildren := tableRec.arrChildren ++ [uid] }
        ({ s with store := store4, stack := tableUid :: s.stack }, [])
      else if parent.kind = .array ∨ parent.kind = .content ∨ parent.kind = .table then
        ({ s with store := (s.store.setObj parentUid
            { parent with arrChildren := parent.arrChildren ++ [uid] }) }, [])
      else if parent.kind = .dictionary then
        match s.pendingDictionaryKey with
        | some key =>
          ({ s with
              store := (s.store.setObj parentUid
                { parent with dictChildren := assocSet parent.dictChildren key uid }),
              pendingDictionaryKey := none }, [])
        | none =>
          if hasValueProp obj.kind then
            ({ s with pendingDictionaryKey := some (jsValToString obj.value) }, [])
          else
            ({ s with pendingDictionaryKey := some "" },
              ["lexer:invalid_token:" ++ tokTypeStr tok ++ ":invalid_key"])
      else if parent.kind = .indirect then
        match parent.direct with
        | none =>
          ({ s with store := s.store.setObj parentUid { parent with direct := some uid } }, [])
        | some _ =>
          (s, ["lexer:invalid_token:" ++ tokTypeStr tok ++ ":multiple_children"])
      else
        ({ s with crashed := true }, [])

/-- The recovery loop of `popStack`:
`while (stack.length > 1) { parent = stack.pop(); if (parent.type === type) break }`.
Returns the last popped object and the remaining stack. -/
def recoveryPop (store : Store) (typ : ObjKind) : Nat → List Nat → Nat × List Nat
  | _lastP, p :: q :: rest =>
    if (store.getObj p).kind = typ then (p, q :: rest)
    else recoveryPop store typ p (q :: rest)
  | lastP, st => (lastP, st)

/-- The xref-table conversion in the Table branch of `popStack`. -/
def convertXrefTable (startNum : Int) (objs : List (Int × Int × String)) : XrefTabVal :=
  { startNum := startNum,
    objs := (objs.enum.filterMap (fun p =>
      let num := startNum + (p.1 : Int)
      let (field1, field2, typ) := p.2
      if typ = "n" then some (XrefTabEntry.nEntry num field1 field2)
      else if typ = "f" then some (XrefTabEntry.fEntry num field1 field2)
      else none)) }

/-- `Lexer.popStack`. -/
def popStack (s : LexState) (typ : ObjKind) (tok : LToken) : LexState × List String :=
  if s.stack.length ≤ 1 then
    (s, ["lexer:invalid_token:" ++ tokTypeStr tok ++ ":missing_start"])
  else
    match s.stack with
    | [] => (s, [])
    | popped :: rest =>
      -- `if (this.pendingDictionaryKey)`: truthy, so the empty string set by
      -- an invalid key does not fire
      let (pk, w1) :=
        match s.pendingDictionaryKey with
        | some key =>
          if key ≠ "" then
            ((none : Option String),
              ["lexer:invalid_token:" ++ tokTypeStr tok ++ ":missing_value"])
          else (some key, [])
        | none => (none, [])
      let (finalParent, rest2, w2) :=
        if (s.store.getObj popped).kind ≠ typ then
          let (fp, st2) := recoveryPop s.store typ popped rest
          (fp, st2,
            ["lexer:invalid_token:" ++ objKindStr (s.store.getObj popped).kind ++ ":missing_end"])
        else (popped, rest, [])
      let s2 := { s with stack := rest2, pendingDictionaryKey := pk }
      let fpRec := s2.store.getObj finalParent
      if fpRec.kind = .table then
        let fp2 :=
          { fpRec with
            xrefTable :=
              (match s2.pendingXrefStartNum with
              | some startNum => some (convertXrefTable startNum s2.pendingXrefObjs)
              | none => fpRec.xrefTable),
            trailerChild :=
              (match s2.pendingTrailer with
              | .dictP uid => some uid
              | _ => fpRec.trailerChild),
            startxref := tokEofValue tok }
        ({ s2 with
            store := s2.store.setObj finalParent fp2,
            pendingXrefStartNum := none,
            pendingXrefObjs := [],
            pendingTrailer := .noneP }, w1 ++ w2)
      else (s2, w1 ++ w2)

/-- Create a value object and insert it. -/
def createAndInsert (s : LexState) (r : ObjRec) (tok : LToken) : LexState × List String :=
  let (store2, uid) := s.store.createObject r
  insertObject { s with store := store2 } uid tok

/-- Create a container object, insert it, and push it on the stack
(`insertObject` then `pushStack` as in the source; the push is skipped when
`insertObject` threw). -/
def createInsertPush (s : LexState) (r : ObjRec) (tok : LToken) : LexState × List String :=
  let (store2, uid) := s.store.createObject r
  let (s2, w) := insertObject { s with store := store2 } uid tok
  if s2.crashed then (s2, w) else ({ s2 with stack := uid :: s2.stack }, w)

/-- `Lexer.pushToken`. -/
def pushToken (s : LexState) (tok : LToken) : LexState × List String :=
  if s.crashed then (s, []) else
  match tok with
  | .space => (s, [])
  | .comment str => createAndInsert s { kind := .comment, value := .vStr str } tok
  | .junk str => createAndInsert s { kind := .junk, value := .vStr str } tok
  | .nullTok => createAndInsert s { kind := .nullK, value := .vNull } tok
  | .boolTok b => createAndInsert s { kind := .boolean, value := .vBool b } tok
  | .intTok n => createAndInsert s { kind := .integer, value := .vInt n } tok
  | .realTok q => createAndInsert s { kind := .real, value := .vReal q } tok
  | .strTok data => createAndInsert s (createStringObject "string" data) tok
  | .hexTok data => createAndInsert s (createStringObject "hexstring" data) tok
  | .nameTok nm => createAndInsert s { kind := .nameK, value := .vStr nm } tok
  | .arrayStart => createInsertPush s { kind := .array } tok
  | .arrayEnd => popStack s .array tok
  | .dictStart => createInsertPush s { kind := .dictionary } tok
  | .dictEnd => popStack s .dictionary tok
  | .indirectStart num gen =>
    -- createObject, then `obj.identifier = token.value; store.addObject(obj)`
    let (store2, uid) := s.store.createObject { kind := .indirect }
    let rec2 := { store2.getObj uid with identifier := some (num, gen) }
    let store3 := store2.addObject uid rec2
    let (s2, w) := insertObject { s with store := store3 } uid tok
    if s2.crashed then (s2, w) else ({ s2 with stack := uid :: s2.stack }, w)
  | .indirectEnd => popStack s .indirect tok
  | .refTok num gen =>
    createAndInsert s { kind := .ref, identifier := some (num, gen) } tok
  | .streamTok sstart send =>
    -- the two guard failures push onto a local `warnings1` array and `break`
    -- out of the switch, after which `return { obj: null, warnings: [] }`
    -- discards them
    match s.stack with
    | [] => (s, [])
    | parentUid :: _ =>
      let parent := s.store.getObj parentUid
      if parent.kind ≠ .indirect then (s, [])
      else
        match parent.direct with
        | none => (s, [])
        | some dictUid =>
          if (s.store.getObj dictUid).kind ≠ .dictionary then (s, [])
          else
            let store2 := s.store.setObj parentUid { parent with direct := none }
            let (store3, uid) := store2.createObject
              { kind := .stream, sourceLocation := some (sstart, send),
                dictionaryChild := some dictUid }
            insertObject { s with store := store3 } uid tok
  | .xrefTok startNum objs =>
    ({ s with pendingXrefStartNum := some startNum, pendingXrefObjs := objs }, [])
  | .trailerTok => ({ s with pendingTrailer := .flagP }, [])
  | .eofTok _ => popStack s .table tok
  | .opTok str => createAndInsert s { kind := .op, value := .vStr str } tok

/-- Feed a token list through the lexer, collecting all warnings. -/
def lexRun (s : LexState) : List LToken → LexState × List String
  | [] => (s, [])
  | t :: ts =>
    let (s2, w) := pushToken s t
    let (s3, ws) := lexRun s2 ts
    (s3, w ++ ws)

/-- The store right after `Parser.parseDocumentData` created the collection
(root object, uid 1) and the first revision Table (uid 2, pushed onto the
root). -/
def initStore : Store :=
  let p1 := Store.createObject {} { kind := .root }
  let p2 := p1.1.createObject { kind := .table }
  let rootRec := p2.1.getObj 1
  p2.1.setObj 1 { rootRec with arrChildren := rootRec.arrChildren ++ [2] }

/-- The lexer state seeded by `parseDocumentData`: `stack = [root, table]`
(table on top). -/
def initState : LexState := { store := initStore, stack := [2, 1] }

/-! ## Concrete inputs used by the theorems below -/

/-- A catalog candidate dictionary distinguished by a marker entry. -/
def markerDict (s : String) : List (String × CObj) := [("Marker", CObj.nameObj s)]

/-- A Table whose trailer `Root` entry dereferences to the given dictionary. -/
def trailerTable (d : List (String × CObj)) : TableRec :=
  { trailer := some [("Root", CObj.ref (some (some (CObj.dict d))))], xrefObj := none }

/-- The token stream of `<< 1 (X) >>`: dictionary open, integer `1`,
string `(X)`, dictionary close. -/
def dictIntKeyToks : List LToken :=
  [LToken.dictStart, LToken.intTok 1, LToken.strTok [88], LToken.dictEnd]

/-- A two-object store — a Dictionary (uid 1) on the stack and a fresh
Integer `7` (uid 2) about to be inserted — for exercising `insertObject`
directly. -/
def dictKeyDemoState : LexState :=
  { store :=
      { nextUid := 3,
        objs := [(1, { kind := .dictionary }), (2, { kind := .integer, value := .vInt 7 })] },
    stack := [1] }

/-! ## Theorems -/

/-- Helper: `find?` by key is unchanged by an in-place update of a
different key. -/
theorem find_map_keyUpdate {β : Type} (u v : Nat) (r : β) (h : v ≠ u) :
    ∀ m : List (Nat × β),
      (m.map (fun p => if p.1 = u then (u, r) else p)).find? (fun p => p.1 = v)
        = m.find? (fun p => p.1 = v)
  | [] => rfl
  | p :: rest => by
    by_cases hp : p.1 = u
    · have h1 : (decide (((u, r) : Nat × β).1 = v)) = false := by
        simp [Ne.symm h]
      have h2 : (decide (p.1 = v)) = false := by
        simp only [decide_eq_false_iff_not]
        rw [hp]
        exact Ne.symm h
      simp only [List.map_cons, hp, if_true, List.find?_cons, h1, h2]
      exact find_map_keyUpdate u v r h rest
    · simp only [List.map_cons, hp, if_false, List.find?_cons]
      cases hpv : decide (p.1 = v)
      · exact find_map_keyUpdate u v r h rest
      · rfl

/-- Helper: `find?` by key is unchanged by `assocSet` under a different
key. -/
theorem find_assocSet_ne {β : Type} (m : List (Nat × β)) (u v : Nat) (r : β) (h : v ≠ u) :
    (assocSet m u r).find? (fun p => p.1 = v) = m.find? (fun p => p.1 = v) := by
  unfold assocSet
  by_cases hmem : m.any (fun p => p.1 = u)
  · simp only [hmem, if_true]
    exact find_map_keyUpdate u v r h m
  · simp only [hmem, Bool.false_eq_true, if_false, List.find?_append]
    have h1 : ([(u, r)] : List (Nat × β)).find? (fun p => p.1 = v) = none := by
      simp [List.find?, Ne.symm h]
    rw [h1]
    cases m.find? (fun p => p.1 = v) <;> rfl

/-- Helper: looking an object up after updating a different uid. -/
theorem getObj_setObj_ne (s : Store) (u v : Nat) (r : ObjRec) (h : v ≠ u) :
    (s.setObj u r).getObj v = s.getObj v := by
  unfold Store.setObj Store.getObj
  simp only [find_assocSet_ne s.objs u v r h]

/-- C2 counterexample input: declared `Length` 10, actual body 8 bytes. -/
theorem C2_counterexample :
    decodeStreamLengthCheck { dictLength := some 10, hasF := false, srcStart := 0, srcEnd := 8 }
      = { srcEnd := 8, warnings := ["parser:invalid:stream:length_mismatch"] } := by
  rfl

/-- C2 (amended): whenever the dictionary has a numeric `Length` differing
from `sourceLocation.end - sourceLocation.start`, `decodeStreamObj` emits the
`length_mismatch` warning — with no 2-byte tolerance — and leaves
`sourceLocation.end` unchanged; parsing continues (the check only collects
warnings). -/
theorem C2_amended (s : StreamMeta) :
    (decodeStreamLengthCheck s).srcEnd = s.srcEnd ∧
    ("parser:invalid:stream:length_mismatch" ∈ (decodeStreamLengthCheck s).warnings ↔
      ∃ len, s.dictLength = some len ∧ len ≠ s.srcEnd - s.srcStart) := by
  unfold decodeStreamLengthCheck
  refine ⟨rfl, ?_⟩
  cases hL : s.dictLength with
  | none =>
    cases hF : s.hasF <;> simp [hL, hF]
  | some len =>
    by_cases h : len = s.srcEnd - s.srcStart
    · cases hF : s.hasF <;> simp [hL, hF, h]
    · cases hF : s.hasF <;> simp [hL, hF, h]

/-- C3: with a valid `W`, a numeric `Size` of 1 and no `Index`, a payload
holding one full record still yields an empty `objTable` (while the recorded
subsections are `[(0, Size)]`), because the object-number fill loop is
bounded by `totalCount` before `totalCount` is assigned `Size`. -/
theorem C3_thm :
    parseXrefStreamObj { W := .nums [1, 1, 1], Size := some 1, Index := .absent } [1, 0, 0]
      = { value := some { widths := [1, 1, 1], subsections := [(0, 1)], objTable := [] },
          warnings := [] } := by
  rfl

/-- C5: a width-3 column is not read as a 3-byte big-endian integer.  For the
record `01 00 01 02` under `W = [1, 3, 0]` the three payload bytes are
`00 01 02`, whose big-endian value is `65536*0 + 256*1 + 2 = 258`, but the
source evaluates `getUint16 << 8 + getUint8` as `getUint16 << (8 + getUint8)`
(JavaScript precedence), producing `1 <<< 10 = 1024`. -/
theorem C5_thm :
    readXrefField [1, 0, 1, 2] 1 3 = some 1024 ∧
    parseXrefStreamObj { W := .nums [1, 3, 0], Size := some 8, Index := .nums [7, 1] } [1, 0, 1, 2]
      = { value := some { widths := [1, 3, 0],
                          subsections := [(7, 1)],
                          objTable := [XrefEntry.inUse 7 1024 0] },
          warnings := [] } ∧
    (1024 : Int) ≠ 65536 * 0 + 256 * 1 + 2 := by
  refine ⟨rfl, rfl, by decide⟩

/-- C6 counterexample: the NUMBER run `2.0` contains `.` yet is emitted as an
`integer` token (kind is decided by `Number.isInteger` of the parsed value,
not by the presence of `.`). -/
theorem C6_counterexample :
    (scanNumber ['2', '.', '0']).kind = NumKind.integer ∧
    ['2', '.', '0'].contains '.' = true := by
  exact ⟨by decide, by decide⟩

/-- C6 (amended): a NUMBER run is emitted as `real` exactly when its parsed
numeric value is not an integer — so `real` implies the run contains `.`,
but a run such as `2.0` with an integral value is emitted as `integer`; when
numeric parsing fails, the value is 0, the token carries a warning, and the
kind is `integer`. -/
theorem C6_amended (raw : List Char) :
    ((scanNumber raw).kind = NumKind.real → raw.contains '.' = true) ∧
    ((scanNumber raw).warning = true →
      (scanNumber raw).value = 0 ∧ (scanNumber raw).kind = NumKind.integer) ∧
    ((scanNumber raw).kind = NumKind.real ↔ (scanNumber raw).value.den ≠ 1) := by
  have hden : ¬((scanParsed raw).getD 0).den = 1 → raw.contains '.' = true := by
    intro hne
    by_contra hdot
    have hdot2 : raw.contains '.' = false := by
      exact Bool.not_eq_true _ ▸ Bool.of_not_eq_true hdot
    cases hp : jsParseInt raw with
    | none =>
      refine hne ?_
      unfold scanParsed
      rw [hdot2]
      simp [hp]
    | some n =>
      refine hne ?_
      unfold scanParsed
      rw [hdot2]
      simp [hp, Rat.den_intCast]
  refine ⟨?_, ?_, ?_⟩
  · intro hk
    apply hden
    intro h1
    simp [scanNumber, h1] at hk
  · intro hw
    have hp : scanParsed raw = none := by
      simpa [scanNumber] using hw
    simp [scanNumber, hp]
  · by_cases h1 : ((scanParsed raw).getD 0).den = 1 <;> simp [scanNumber, h1]

/-- C6 witness: `2.5` is emitted as a `real` token. -/
theorem C6_witness : (scanNumber ['2', '.', '5']).kind = NumKind.real :=
  (C6_amended ['2', '.', '5']).2.2.mpr (by decide)

/-- C7: a string whose bytes begin with the BOM FE FF is decoded through the
UTF-16BE decoder but the resulting Text object carries the encoding tag
`utf-8`, not `utf-16be` (`createTextObject(str, 'utf-8')` in the `utf16be`
handler). -/
theorem C7_thm :
    createStringObject "string" [254, 255, 0, 65]
      = { kind := .text, value := .vUnits [65], encoding := "utf-8", tokenType := "string" } ∧
    "utf-8" ≠ "utf-16be" := by
  exact ⟨rfl, by decide⟩

theorem lookupIndirect_withRefs (c : RefCollection) (xs : List RefRec) (id : Int × Int) :
    lookupIndirect { c with refs := xs } id = lookupIndirect c id := rfl

theorem resolveOneRef_withRefs (c : RefCollection) (xs : List RefRec) (r : RefRec) :
    resolveOneRef { c with refs := xs } r = resolveOneRef c r := rfl

theorem resolveOneRef_idem (c : RefCollection) (r : RefRec) :
    resolveOneRef c (resolveOneRef c r) = resolveOneRef c r := by
  cases hid : r.identifier with
  | none => simp [resolveOneRef, hid]
  | some id =>
    by_cases hind : r.indirect = none
    · cases hl : lookupIndirect c id with
      | none => simp [resolveOneRef, hid, hind, hl]
      | some u => simp [resolveOneRef, hid, hind, hl]
    · simp [resolveOneRef, hid, hind]

/-- C9: `resolveRefs` is idempotent — the second run changes nothing because
resolution only assigns to refs whose `indirect` is still unset, and a
failing lookup fails again against the unchanged `indirects` index. -/
theorem C9_thm (c : RefCollection) : resolveRefs (resolveRefs c) = resolveRefs c := by
  have h1 : resolveRefs (resolveRefs c)
      = { resolveRefs c with
          refs := (c.refs.map (resolveOneRef c)).map (resolveOneRef (resolveRefs c)) } := rfl
  rw [h1]
  have h2 : (c.refs.map (resolveOneRef c)).map (resolveOneRef (resolveRefs c))
      = c.refs.map (resolveOneRef c) := by
    rw [List.map_map]
    apply List.map_congr_left
    intro r _
    show resolveOneRef (resolveRefs c) (resolveOneRef c r) = resolveOneRef c r
    rw [show resolveRefs c = { c with refs := c.refs.map (resolveOneRef c) } from rfl]
    rw [resolveOneRef_withRefs]
    exact resolveOneRef_idem c r
  rw [h2]
  rfl

/-- C1 counterexample: two Tables whose trailers dereference to different
dictionaries.  `resolveCatalog` returns the catalog of the *second* (last)
Table — each matching Table overwrites `store.catalog` — whereas the claim
says the first match wins. -/
theorem C1_counterexample :
    resolveCatalog none
        [RootChild.table (trailerTable (markerDict "A")),
          RootChild.table (trailerTable (markerDict "B"))]
      = some (markerDict "B") ∧ markerDict "B" ≠ markerDict "A" := by
  refine ⟨rfl, ?_⟩
  intro h
  simp [markerDict] at h

/-- C1 (amended): `resolveCatalog` examines every Table of the Root; each
Table's candidate prefers the trailer `Root` dereference and falls back to
the xref-stream dictionary's `Root` dereference, but every Table that yields
a match overwrites `store.catalog`, so the *last* matching Table wins;
non-Table children are skipped. -/
theorem C1_amended (catalog0 : Option (List (String × CObj))) (ts : List RootChild)
    (t : TableRec) (tr c : List (String × CObj)) :
    (resolveCatalog catalog0 (ts ++ [RootChild.table t])
      = match tableCatalog t with
        | some cat => some cat
        | none => resolveCatalog catalog0 ts) ∧
    (resolveCatalog catalog0 (ts ++ [RootChild.nonTable]) = resolveCatalog catalog0 ts) ∧
    (t.trailer = some tr → derefRootParam tr = some c → tableCatalog t = some c) ∧
    (t.trailer = none →
      tableCatalog t
        = match t.xrefObj with
          | some (XrefParent.streamParent (some d)) => derefRootParam d
          | _ => none) ∧
    (t.trailer = some tr → derefRootParam tr = none →
      tableCatalog t
        = match t.xrefObj with
          | some (XrefParent.streamParent (some d)) => derefRootParam d
          | _ => none) := by
  refine ⟨?_, ?_, ?_, ?_, ?_⟩
  · unfold resolveCatalog
    rw [List.foldl_append]
    rfl
  · unfold resolveCatalog
    rw [List.foldl_append]
    rfl
  · intro h1 h2
    simp only [tableCatalog, h1, h2]
  · intro h
    simp only [tableCatalog, h]
  · intro h1 h2
    simp only [tableCatalog, h1, h2]

/-- C1 witness: a Table whose trailer dereferences to a dictionary yields
that dictionary. -/
theorem C1_witness :
    tableCatalog (trailerTable (markerDict "B")) = some (markerDict "B") :=
  (C1_amended none [] (trailerTable (markerDict "B"))
      [("Root", CObj.ref (some (some (CObj.dict (markerDict "B")))))]
      (markerDict "B")).2.2.1 rfl rfl

/-- Helper: take of an append at the first list's length. -/
theorem take_append_self {α : Type} (l1 l2 : List α) : (l1 ++ l2).take l1.length = l1 := by
  induction l1 with
  | nil => rfl
  | cons x xs ih => simp [List.take_cons, ih]

/-- C4: the tokenizer's lookahead composition.  `space`, `junk` and `integer`
raw tokens emit nothing (they are dropped or buffered); when an
`indirect_start` or `ref` arrives, the two most recently buffered tokens are
spliced off: if both are integers their values become the `{num, gen}`
payload, and otherwise (fewer than two, or wrong kinds) the payload is
`{num: -1, gen: -1}` and the token carries a warning. -/
theorem C4_thm (buf : List OutTok) (t : RawTok) :
    ((t.kind = .space ∨ t.kind = .junk ∨ t.kind = .integer) → (composeStep buf t).2 = []) ∧
    ((t.kind = .indirectStart ∨ t.kind = .refK) →
      (∀ bs a b, buf = bs ++ [a, b] → a.kind = .integer → b.kind = .integer →
        (composeStep buf t).2
          = bs ++ [{ rawToOut t with numgen := some (a.ival, b.ival) }]) ∧
      ((¬ ∃ bs a b, buf = bs ++ [a, b] ∧ a.kind = .integer ∧ b.kind = .integer) →
        (composeStep buf t).2
          = buf.take (buf.length - 2)
              ++ [{ rawToOut t with numgen := some (-1, -1), warning := true }])) := by
  constructor
  · rintro (hk | hk | hk)
    · simp [composeStep, hk]
    · simp only [composeStep, hk]
      cases hb : buf.getLast? with
      | none => rfl
      | some last =>
        dsimp only
        split <;> rfl
    · simp [composeStep, hk]
  · intro hk
    have hstep : composeStep buf t = composeStep.composeObjTok buf t := by
      rcases hk with hk | hk <;> simp [composeStep, hk]
    constructor
    · intro bs a b hbuf ha hb
      subst hbuf
      rw [hstep]
      unfold composeStep.composeObjTok
      simp [ha, hb]
    · intro hno
      rw [hstep]
      unfold composeStep.composeObjTok
      match hrev : buf.reverse with
      | [] =>
        have hbuf : buf = [] := by
          have := congrArg List.reverse hrev
          simpa using this
        subst hbuf
        rfl
      | [b] =>
        have hbuf : buf = [b] := by
          have := congrArg List.reverse hrev
          simpa using this
        subst hbuf
        rfl
      | b :: a :: rest =>
        have hbuf : buf = rest.reverse ++ [a, b] := by
          have := congrArg List.reverse hrev
          simpa using this
        have hnot : ¬(a.kind = .integer ∧ b.kind = .integer) := by
          intro hab
          exact hno ⟨rest.reverse, a, b, hbuf, hab.1, hab.2⟩
        dsimp only
        rw [if_neg hnot]
        subst hbuf
        have hlen : (rest.reverse ++ [a, b]).length - 2 = rest.reverse.length := by
          simp
        rw [hlen, take_append_self]

/-- C4 witness: `3 0 R` — two buffered integers become the `{num, gen}`
payload of the emitted `ref` token. -/
theorem C4_witness :
    (composeStep [{ kind := .integer, ival := 3 }, { kind := .integer, ival := 0 }]
        { kind := .refK }).2
      = [{ kind := TkKind.refK, numgen := some (3, 0) }] :=
  ((C4_thm [{ kind := .integer, ival := 3 }, { kind := .integer, ival := 0 }]
        { kind := .refK }).2 (Or.inr rfl)).1
    [] { kind := .integer, ival := 3 } { kind := .integer, ival := 0 } rfl rfl rfl

/-- C8 counterexample: lexing `<< 1 (X) >>` produces *no* warning — in
particular not `lexer:invalid_token:integer:invalid_key` — because the
Integer object has a `value` property and therefore becomes the pending key
`"1"`, under which the Text `(X)` is then stored. -/
theorem C8_counterexample :
    (lexRun initState dictIntKeyToks).2 = [] ∧
    ((lexRun initState dictIntKeyToks).1.store.getObj 3).dictChildren = [("1", 5)] ∧
    ((lexRun initState dictIntKeyToks).1.store.getObj 5).value = JsVal.vUnits [88] := by
  exact ⟨rfl, rfl, rfl⟩

/-- C8 (amended): in key position (dictionary parent, no pending key) any
object with a `value` property — integers included — is accepted: the key
becomes `String(value)` with no warning; only objects without a `value`
property (the containers) produce `lexer:invalid_token:<token>:invalid_key`
and set the pending key to the empty string to keep parity. -/
theorem C8_amended (s : LexState) (uid parentUid : Nat) (tok : LToken) (rest : List Nat)
    (hnp : uid ≠ parentUid)
    (htr : s.pendingTrailer = .noneP)
    (hst : s.stack = parentUid :: rest)
    (hpar : (s.store.getObj parentUid).kind = .dictionary)
    (hkey : s.pendingDictionaryKey = none) :
    (hasValueProp (s.store.getObj uid).kind = true →
      insertObject s uid tok
        = ({ s with
              store := s.store.setObj uid
                { s.store.getObj uid with parent := some parentUid },
              pendingDictionaryKey := some (jsValToString (s.store.getObj uid).value) }, [])) ∧
    (hasValueProp (s.store.getObj uid).kind = false →
      insertObject s uid tok
        = ({ s with
              store := s.store.setObj uid
                { s.store.getObj uid with parent := some parentUid },
              pendingDictionaryKey := some "" },
            ["lexer:invalid_token:" ++ tokTypeStr tok ++ ":invalid_key"])) := by
  have hobj : ((s.store.setObj uid
        { s.store.getObj uid with parent := some parentUid }).getObj parentUid)
      = s.store.getObj parentUid :=
    getObj_setObj_ne _ _ _ _ (Ne.symm hnp)
  have hguard : ¬(s.pendingTrailer ≠ .noneP ∧ (s.store.getObj uid).kind = .dictionary) := by
    rw [htr]
    intro h
    exact h.1 rfl
  constructor
  · intro hv
    unfold insertObject
    rw [if_neg hguard, hst]
    dsimp only
    rw [hobj, hpar]
    simp [hkey, hv]
  · intro hv
    unfold insertObject
    rw [if_neg hguard, hst]
    dsimp only
    rw [hobj, hpar]
    simp [hkey, hv]

/-- C8 witness: inserting the Integer `7` into a dictionary in key position
sets the pending key to `"7"` with no warning. -/
theorem C8_witness :
    insertObject dictKeyDemoState 2 (LToken.intTok 1)
      = ({ dictKeyDemoState with
            store := dictKeyDemoState.store.setObj 2
              { dictKeyDemoState.store.getObj 2 with parent := some 1 },
            pendingDictionaryKey := some "7" }, []) := by
  have h := (C8_amended dictKeyDemoState 2 1 (LToken.intTok 1) [] (by decide) rfl rfl rfl rfl).1 rfl
  exact h

/-- Helper: consing on a list that has a last element keeps it. -/
theorem getLast?_cons_some {α : Type} (x : α) (l : List α) (b : α)
    (h : l.getLast? = some b) : (x :: l).getLast? = some b := by
  cases l with
  | nil => simp at h
  | cons y ys => rw [List.getLast?_cons_cons]; exact h

/-- Helper: the recovery loop of `popStack` never removes the bottom
element. -/
theorem recoveryPop_getLast? (store : Store) (typ : ObjKind) :
    ∀ (lp : Nat) (st : List Nat) (b : Nat), st.getLast? = some b →
      ((recoveryPop store typ lp st).2).getLast? = some b
  | lp, [], b, h => by simp at h
  | lp, [x], b, h => by
    simpa [recoveryPop] using h
  | lp, p :: q :: rest, b, h => by
    have hqr : (q :: rest).getLast? = some b := by
      rw [List.getLast?_cons_cons] at h
      exact h
    unfold recoveryPop
    by_cases hk : (store.getObj p).kind = typ
    · simpa [hk] using hqr
    · simpa [hk] using recoveryPop_getLast? store typ p (q :: rest) b hqr

/-- Helper: `popStack` preserves the bottom of the stack. -/
theorem popStack_getLast? (s : LexState) (typ : ObjKind) (tok : LToken) (b : Nat)
    (hb : s.stack.getLast? = some b) :
    ((popStack s typ tok).1).stack.getLast? = some b := by
  by_cases hlen : s.stack.length ≤ 1
  · simp only [popStack, hlen, if_true]
    exact hb
  · cases hs : s.stack with
    | nil => rw [hs] at hb; simp at hb
    | cons p rest =>
      have hrest : rest ≠ [] := by
        intro hr
        rw [hs, hr] at hlen
        simp at hlen
      have hrb : rest.getLast? = some b := by
        rw [hs] at hb
        cases rest with
        | nil => exact absurd rfl hrest
        | cons q qs => rw [List.getLast?_cons_cons] at hb; exact hb
      have hlen2 : ¬s.stack.length ≤ 1 := hlen
      unfold popStack
      rw [if_neg hlen2, hs]
      dsimp only
      by_cases hk : (s.store.getObj p).kind = typ
      · rw [if_neg (by simp [hk] : ¬(s.store.getObj p).kind ≠ typ)]
        dsimp only
        split <;> exact hrb
      · rw [if_pos (by simp [hk] : (s.store.getObj p).kind ≠ typ)]
        dsimp only
        have hrec := recoveryPop_getLast? s.store typ p rest b hrb
        split <;> exact hrec

/-- Helper: `insertObject` preserves the bottom of the stack (it only ever
reads the top, or pushes an implicit Table). -/
theorem insertObject_getLast? (s : LexState) (uid : Nat) (tok : LToken) (b : Nat)
    (hb : s.stack.getLast? = some b) :
    ((insertObject s uid tok).1).stack.getLast? = some b := by
  unfold insertObject
  by_cases hg : s.pendingTrailer ≠ .noneP ∧ (s.store.getObj uid).kind = .dictionary
  · rw [if_pos hg]
    exact hb
  · rw [if_neg hg]
    repeat' first
      | exact hb
      | exact getLast?_cons_some _ _ _ hb
      | split
      | dsimp only

/-- Helper: `createAndInsert` preserves the bottom of the stack. -/
theorem createAndInsert_getLast? (s : LexState) (r : ObjRec) (tok : LToken) (b : Nat)
    (hb : s.stack.getLast? = some b) :
    ((createAndInsert s r tok).1).stack.getLast? = some b := by
  unfold createAndInsert
  apply insertObject_getLast?
  exact hb

/-- Helper: `createInsertPush` preserves the bottom of the stack. -/
theorem createInsertPush_getLast? (s : LexState) (r : ObjRec) (tok : LToken) (b : Nat)
    (hb : s.stack.getLast? = some b) :
    ((createInsertPush s r tok).1).stack.getLast? = some b := by
  unfold createInsertPush
  dsimp only
  split
  · apply insertObject_getLast?
    exact hb
  · apply getLast?_cons_some
    apply insertObject_getLast?
    exact hb

/-- Helper: one `pushToken` step preserves the bottom of the stack. -/
theorem pushToken_getLast? (s : LexState) (tok : LToken) (b : Nat)
    (hb : s.stack.getLast? = some b) :
    ((pushToken s tok).1).stack.getLast? = some b := by
  unfold pushToken
  by_cases hc : s.crashed = true
  · rw [if_pos hc]
    exact hb
  · rw [if_neg hc]
    cases tok with
    | space => exact hb
    | comment str => exact createAndInsert_getLast? _ _ _ _ hb
    | junk str => exact createAndInsert_getLast? _ _ _ _ hb
    | nullTok => exact createAndInsert_getLast? _ _ _ _ hb
    | boolTok bv => exact createAndInsert_getLast? _ _ _ _ hb
    | intTok n => exact createAndInsert_getLast? _ _ _ _ hb
    | realTok q => exact createAndInsert_getLast? _ _ _ _ hb
    | strTok data => exact createAndInsert_getLast? _ _ _ _ hb
    | hexTok data => exact createAndInsert_getLast? _ _ _ _ hb
    | nameTok nm => exact createAndInsert_getLast? _ _ _ _ hb
    | arrayStart => exact createInsertPush_getLast? _ _ _ _ hb
    | arrayEnd => exact popStack_getLast? _ _ _ _ hb
    | dictStart => exact createInsertPush_getLast? _ _ _ _ hb
    | dictEnd => exact popStack_getLast? _ _ _ _ hb
    | indirectStart num gen =>
      dsimp only
      split
      · apply insertObject_getLast?
        exact hb
      · apply getLast?_cons_some
        apply insertObject_getLast?
        exact hb
    | indirectEnd => exact popStack_getLast? _ _ _ _ hb
    | refTok num gen => exact createAndInsert_getLast? _ _ _ _ hb
    | streamTok a c =>
      repeat' first
        | contradiction
        | exact hb
        | (apply insertObject_getLast?; exact hb)
        | (exact createAndInsert_getLast? _ _ _ _ hb)
        | (exact createInsertPush_getLast? _ _ _ _ hb)
        | (exact popStack_getLast? _ _ _ _ hb)
        | split
        | dsimp only
    | xrefTok startNum objs => exact hb
    | trailerTok => exact hb
    | eofTok offset => exact popStack_getLast? _ _ _ _ hb
    | opTok str => exact createAndInsert_getLast? _ _ _ _ hb

/-- Helper: feeding any token sequence preserves the bottom of the stack. -/
theorem lexRun_getLast? (toks : List LToken) : ∀ (s : LexState) (b : Nat),
    s.stack.getLast? = some b → ((lexRun s toks).1).stack.getLast? = some b := by
  induction toks with
  | nil =>
    intro s b hb
    exact hb
  | cons t ts ih =>
    intro s b hb
    exact ih (pushToken s t).1 b (pushToken_getLast? s t b hb)

/-- C10: the lexer's parent stack never underflows.  For any state whose
stack has bottom element `b`, pushing any sequence of tokens leaves a
non-empty stack with the same bottom (an end token can at most pop down to —
never past — the bottom, and mismatch recovery stops before removing it);
and when the stack holds only the bottom, `popStack` emits the
`missing_start` warning and leaves the state unchanged. -/
theorem C10_thm (s : LexState) (toks : List LToken) (b : Nat)
    (hb : s.stack.getLast? = some b) :
    ((lexRun s toks).1).stack.getLast? = some b ∧
    (∀ typ tok, s.stack = [b] →
      popStack s typ tok
        = (s, ["lexer:invalid_token:" ++ tokTypeStr tok ++ ":missing_start"])) := by
  refine ⟨lexRun_getLast? toks s b hb, ?_⟩
  intro typ tok hone
  unfold popStack
  rw [hone]
  simp

/-- C10 witness: from a stack holding only the Root, an `array_end` token
leaves the bottom in place, and a direct `popStack` on the singleton stack
reports `missing_start` without changing the state. -/
theorem C10_witness :
    ((lexRun { store := initStore, stack := [1] } [LToken.arrayEnd]).1).stack.getLast? = some 1 ∧
    popStack { store := initStore, stack := [1] } ObjKind.array LToken.arrayEnd
      = ({ store := initStore, stack := [1] },
          ["lexer:invalid_token:array_end:missing_start"]) := by
  have h := C10_thm { store := initStore, stack := [1] } [LToken.arrayEnd] 1 rfl
  exact ⟨h.1, h.2 ObjKind.array LToken.arrayEnd rfl⟩

end Pdful
